import Mathlib

set_option maxHeartbeats 1000000
set_option maxRecDepth 10000

/-!
Verification development for the BlindBid repository.

This file gives a shallow embedding of the backend services
(sponsorService, quoteService, hederaService) and of the on-chain
contracts (BlindBidNativePaymaster, BlindBidEscrow), and proves the
frozen specification claims against those embeddings.

Modelling conventions:
  - keccak256 applied to a structured preimage is modelled by keeping
    the preimage itself (a hash is identified with the tuple of fields
    it commits to); this reflects the collision resistance of keccak256.
    Where a claim is about the byte-level ABI encoding fed to keccak256,
    the encoding is modelled explicitly as a list of bytes and keccak256
    is quantified as an arbitrary function on byte lists.
  - ECDSA / EIP-191 signatures are modelled by a record holding the
    signing key and the exact payload signed; recovery against the signed
    payload yields the signer address, recovery against any other payload
    yields no usable address (unforgeability assumption).
  - JavaScript numbers are modelled as rationals, JS Math.round as
    round-half-up on rationals, and bigint as Int or Nat.
  - JavaScript Map objects are modelled as association lists where an
    insertion prepends the binding and lookup takes the first match.
-/

/-- Model of address derivation from a private key.  Keys are identified
with the addresses they derive; the derivation is injective. -/
def addrOfKey (k : Nat) : Nat := k

/-- Model of an EIP-191 signature over a payload of type alpha.  The
signature records the signing key and the exact payload that was signed. -/
structure Signed (α : Type) where
  key : Nat
  payload : α
deriving DecidableEq

/-- Model of signature creation (ethers signer.signMessage). -/
def signMessage {α : Type} (key : Nat) (payload : α) : Signed α := ⟨key, payload⟩

/-- Model of signature recovery (ethers.verifyMessage / ECDSA.recover):
recovery against the payload that was signed yields the signer address;
against any other payload it yields no usable address. -/
def recoverSigner {α : Type} [DecidableEq α] (payload : α) (s : Signed α) : Option Nat :=
  if s.payload = payload then some (addrOfKey s.key) else none

/-- Backend configuration: the sponsor signer key (config.sponsorSigner).
The configured address is the one derived from the configured key. -/
structure Config where
  sponsorKey : Nat
deriving DecidableEq

/-- The configured sponsor signer address (config.sponsorSigner.address). -/
def Config.sponsorAddress (c : Config) : Nat := addrOfKey c.sponsorKey

namespace QuoteService

/-- Fiat currencies supported by the quote service (types.ts). -/
inductive FiatCurrency
  | USD
  | AED
deriving DecidableEq

/-- Settlement tokens supported by the quote service (types.ts). -/
inductive SettlementToken
  | ADI_NATIVE
  | MOCK_ERC20
deriving DecidableEq

/-- Mock exchange rates from quoteService.ts: USD maps to 10, AED to 2.72. -/
def RATES : FiatCurrency → ℚ
  | .USD => 10
  | .AED => 272 / 100

/-- Max slippage constant from quoteService.ts. -/
def MAX_SLIPPAGE_BPS : Nat := 50

/-- JS Math.round: round half toward positive infinity. -/
def jsRound (q : ℚ) : Int := (q + 1 / 2).floor

/-- Model of ethers.parseEther(x.toFixed(6)): the value is rounded to six
decimal places and scaled to 18 decimals. -/
def parseEtherFixed6 (q : ℚ) : Int := jsRound (q * 1000000) * 1000000000000

/-- The tuple of fields the quote hash commits to: in quoteService.ts the
hash is keccak256 of the ABI encoding of (auctionId, round(fiatAmount*100),
fiatCurrency, tokenAmount, validUntil).  The hash is modelled by its
preimage tuple. -/
structure QuoteHashInput where
  auctionId : String
  fiatCents : Int
  fiatCurrency : FiatCurrency
  tokenAmount : Int
  validUntil : Nat
deriving DecidableEq

/-- PriceQuote record from types.ts. -/
structure PriceQuote where
  auctionId : String
  fiatAmount : ℚ
  fiatCurrency : FiatCurrency
  tokenAmount : Int
  settlementToken : SettlementToken
  exchangeRate : ℚ
  maxSlippageBps : Nat
  validUntil : Nat
  signature : Signed QuoteHashInput
deriving DecidableEq

/-- generateQuote from quoteService.ts.  The wall clock (Date.now in
seconds) is passed explicitly as now. -/
def generateQuote (cfg : Config) (auctionId : String) (fiatAmount : ℚ)
    (fiatCurrency : FiatCurrency) (settlementToken : SettlementToken)
    (validitySeconds : Nat) (now : Nat) : Except String PriceQuote :=
  if fiatAmount ≤ 0 then .error "fiatAmount must be > 0"
  else
    let rate := RATES fiatCurrency
    let tokenAmountFloat := fiatAmount * rate
    let tokenAmount := parseEtherFixed6 tokenAmountFloat
    let validUntil := now + validitySeconds
    let hash : QuoteHashInput :=
      { auctionId := auctionId
        fiatCents := jsRound (fiatAmount * 100)
        fiatCurrency := fiatCurrency
        tokenAmount := tokenAmount
        validUntil := validUntil }
    let signature := signMessage cfg.sponsorKey hash
    .ok
      { auctionId := auctionId
        fiatAmount := fiatAmount
        fiatCurrency := fiatCurrency
        tokenAmount := tokenAmount
        settlementToken := settlementToken
        exchangeRate := rate
        maxSlippageBps := MAX_SLIPPAGE_BPS
        validUntil := validUntil
        signature := signature }

/-- verifyQuote from quoteService.ts: recompute the hash from the quote
fields alone and check the recovered signer against the configured
sponsor signer address.  No clock is consulted. -/
def verifyQuote (cfg : Config) (quote : PriceQuote) : Bool :=
  let hash : QuoteHashInput :=
    { auctionId := quote.auctionId
      fiatCents := jsRound (quote.fiatAmount * 100)
      fiatCurrency := quote.fiatCurrency
      tokenAmount := quote.tokenAmount
      validUntil := quote.validUntil }
  match recoverSigner hash quote.signature with
  | some recovered => recovered == cfg.sponsorAddress
  | none => false

/-- Helper: a quote produced by generateQuote verifies. -/
theorem verifyQuote_of_generateQuote {cfg : Config} {auctionId : String}
    {fiatAmount : ℚ} {cur : FiatCurrency} {tok : SettlementToken}
    {vs now : Nat} {q : PriceQuote}
    (hq : generateQuote cfg auctionId fiatAmount cur tok vs now = .ok q) :
    verifyQuote cfg q = true := by
  unfold generateQuote at hq
  by_cases h : fiatAmount ≤ 0
  · simp [h] at hq
  · simp only [h, if_false] at hq
    cases hq
    simp [verifyQuote, recoverSigner, signMessage, Config.sponsorAddress]

end QuoteService

namespace QuoteService

/-- C9: verifyQuote is a function of the quote fields and the configured
signer key only and performs no expiry check: an untampered generated
quote verifies, and it still verifies at any evaluation time t, including
times past its validUntil. -/
theorem c9_verifyQuote_ignores_expiry (cfg : Config) (auctionId : String)
    (fiatAmount : ℚ) (cur : FiatCurrency) (tok : SettlementToken)
    (vs now : Nat) (q : PriceQuote)
    (hq : generateQuote cfg auctionId fiatAmount cur tok vs now = .ok q) :
    verifyQuote cfg q = true ∧ ∀ t : Nat, q.validUntil < t → verifyQuote cfg q = true :=
  ⟨verifyQuote_of_generateQuote hq, fun _ _ => verifyQuote_of_generateQuote hq⟩

/-- The concrete quote produced by generateQuote for 100 USD at rate 10
with validity 600 starting at time 0, under sponsor key 1. -/
def sampleQuote : PriceQuote :=
  { auctionId := "A-1"
    fiatAmount := 100
    fiatCurrency := .USD
    tokenAmount := 1000000000000000000000
    settlementToken := .ADI_NATIVE
    exchangeRate := 10
    maxSlippageBps := 50
    validUntil := 600
    signature :=
      ⟨1, { auctionId := "A-1"
            fiatCents := 10000
            fiatCurrency := .USD
            tokenAmount := 1000000000000000000000
            validUntil := 600 }⟩ }

/-- Witness for c9_verifyQuote_ignores_expiry at a concrete quote: the
quote generated at now = 0 expires at 600 and still verifies at t = 601. -/
theorem c9_verifyQuote_ignores_expiry_witness :
    generateQuote ⟨1⟩ "A-1" 100 .USD .ADI_NATIVE 600 0 = .ok sampleQuote
    ∧ verifyQuote ⟨1⟩ sampleQuote = true
    ∧ (sampleQuote.validUntil < 601 → verifyQuote ⟨1⟩ sampleQuote = true) := by
  have hg : generateQuote ⟨1⟩ "A-1" 100 .USD .ADI_NATIVE 600 0 = .ok sampleQuote := by
    simp only [generateQuote, parseEtherFixed6, RATES, MAX_SLIPPAGE_BPS, signMessage, sampleQuote]
    norm_num [jsRound, Rat.floor_def']
  refine ⟨hg, (c9_verifyQuote_ignores_expiry ⟨1⟩ "A-1" 100 .USD .ADI_NATIVE 600 0 _ hg).1,
    fun h => (c9_verifyQuote_ignores_expiry ⟨1⟩ "A-1" 100 .USD .ADI_NATIVE 600 0 _ hg).2 601 h⟩

end QuoteService

namespace QuoteService

/-- C4 counterexample: the quote hash in quoteService.ts covers only
(auctionId, fiat cents, fiatCurrency, tokenAmount, validUntil), so
mutating the settlement asset of a generated quote does not make
verifyQuote return false, contradicting the claim that mutating any
single field of a generated quote fails verification. -/
theorem c4_counterexample_settlementToken_mutation_verifies :
    generateQuote ⟨1⟩ "A-1" 100 .USD .ADI_NATIVE 600 0 = .ok sampleQuote
    ∧ ({ sampleQuote with settlementToken := .MOCK_ERC20 } : PriceQuote).settlementToken
        ≠ sampleQuote.settlementToken
    ∧ verifyQuote ⟨1⟩ { sampleQuote with settlementToken := .MOCK_ERC20 } = true := by
  refine ⟨?_, by simp [sampleQuote], ?_⟩
  · simp only [generateQuote, parseEtherFixed6, RATES, MAX_SLIPPAGE_BPS, signMessage, sampleQuote]
    norm_num [jsRound, Rat.floor_def']
  · simp [verifyQuote, sampleQuote, recoverSigner, Config.sponsorAddress, addrOfKey]
    norm_num [jsRound, Rat.floor_def']

/-- C4 (amended): for any valid input, verifyQuote accepts the generated
quote; mutating any field covered by the quote hash (auction id, fiat
currency, token amount, expiry, the fiat amount whenever the change
alters its minor-unit rounding) or the signature makes verifyQuote
return false; mutating the fields not covered by the hash
(settlementToken, exchangeRate, maxSlippageBps) leaves verification
succeeding. -/
theorem c4_quote_roundtrip_and_mutation (cfg : Config) (auctionId : String)
    (fiatAmount : ℚ) (cur : FiatCurrency) (tok : SettlementToken)
    (vs now : Nat) (q : PriceQuote)
    (hq : generateQuote cfg auctionId fiatAmount cur tok vs now = .ok q) :
    verifyQuote cfg q = true
    ∧ (∀ id : String, id ≠ q.auctionId → verifyQuote cfg { q with auctionId := id } = false)
    ∧ (∀ a : ℚ, jsRound (a * 100) ≠ jsRound (q.fiatAmount * 100) →
        verifyQuote cfg { q with fiatAmount := a } = false)
    ∧ (∀ c : FiatCurrency, c ≠ q.fiatCurrency →
        verifyQuote cfg { q with fiatCurrency := c } = false)
    ∧ (∀ t : Int, t ≠ q.tokenAmount → verifyQuote cfg { q with tokenAmount := t } = false)
    ∧ (∀ u : Nat, u ≠ q.validUntil → verifyQuote cfg { q with validUntil := u } = false)
    ∧ (∀ s : Signed QuoteHashInput, s ≠ q.signature →
        verifyQuote cfg { q with signature := s } = false)
    ∧ (∀ st : SettlementToken, verifyQuote cfg { q with settlementToken := st } = true)
    ∧ (∀ er : ℚ, verifyQuote cfg { q with exchangeRate := er } = true)
    ∧ (∀ bps : Nat, verifyQuote cfg { q with maxSlippageBps := bps } = true) := by
  unfold generateQuote at hq
  by_cases h : fiatAmount ≤ 0
  · simp [h] at hq
  · simp only [h, if_false] at hq
    cases hq
    refine ⟨?_, ?_, ?_, ?_, ?_, ?_, ?_, ?_, ?_, ?_⟩
    · simp [verifyQuote, recoverSigner, signMessage, Config.sponsorAddress]
    · intro id hid
      have hid' : auctionId ≠ id := fun e => hid e.symm
      simp [verifyQuote, recoverSigner, signMessage, hid']
    · intro a ha
      have ha' : jsRound (fiatAmount * 100) ≠ jsRound (a * 100) := fun e => ha e.symm
      simp [verifyQuote, recoverSigner, signMessage, ha']
    · intro c hc
      have hc' : cur ≠ c := fun e => hc e.symm
      simp [verifyQuote, recoverSigner, signMessage, hc']
    · intro t ht
      have ht' : parseEtherFixed6 (fiatAmount * RATES cur) ≠ t := fun e => ht e.symm
      simp [verifyQuote, recoverSigner, signMessage, ht']
    · intro u hu
      have hu' : now + vs ≠ u := fun e => hu e.symm
      simp [verifyQuote, recoverSigner, signMessage, hu']
    · intro s hs
      simp only [signMessage] at hs
      simp only [verifyQuote, recoverSigner]
      by_cases hp : s.payload =
        { auctionId := auctionId
          fiatCents := jsRound (fiatAmount * 100)
          fiatCurrency := cur
          tokenAmount := parseEtherFixed6 (fiatAmount * RATES cur)
          validUntil := now + vs }
      · have hk : s.key ≠ cfg.sponsorKey := by
          intro hk
          apply hs
          cases s
          simp_all
        simp [hp, Config.sponsorAddress, addrOfKey, hk]
      · simp [hp]
    · intro st
      simp [verifyQuote, recoverSigner, signMessage, Config.sponsorAddress]
    · intro er
      simp [verifyQuote, recoverSigner, signMessage, Config.sponsorAddress]
    · intro bps
      simp [verifyQuote, recoverSigner, signMessage, Config.sponsorAddress]

end QuoteService

namespace QuoteService

/-- Witness for c4_quote_roundtrip_and_mutation at the concrete sample
quote: the round trip verifies, a mutated expiry fails verification, and
a mutated slippage tolerance still verifies. -/
theorem c4_quote_roundtrip_and_mutation_witness :
    generateQuote ⟨1⟩ "A-1" 100 .USD .ADI_NATIVE 600 0 = .ok sampleQuote
    ∧ verifyQuote ⟨1⟩ sampleQuote = true
    ∧ ((0 : Nat) ≠ sampleQuote.validUntil
        → verifyQuote ⟨1⟩ { sampleQuote with validUntil := 0 } = false)
    ∧ verifyQuote ⟨1⟩ { sampleQuote with maxSlippageBps := 9999 } = true := by
  have hg : generateQuote ⟨1⟩ "A-1" 100 .USD .ADI_NATIVE 600 0 = .ok sampleQuote := by
    simp only [generateQuote, parseEtherFixed6, RATES, MAX_SLIPPAGE_BPS, signMessage, sampleQuote]
    norm_num [jsRound, Rat.floor_def']
  have hc := c4_quote_roundtrip_and_mutation ⟨1⟩ "A-1" 100 .USD .ADI_NATIVE 600 0 sampleQuote hg
  exact ⟨hg, hc.1, fun h => hc.2.2.2.2.2.1 0 h, hc.2.2.2.2.2.2.2.2.2 9999⟩

end QuoteService

namespace Escrow

/-- Escrow states from BlindBidEscrow.sol. -/
inductive EscrowState
  | Empty
  | Funded
  | Released
  | Refunded
  | Disputed
deriving DecidableEq

/-- Escrow record from BlindBidEscrow.sol.  The bytes32 auction hash is
modelled by the auction id string itself (keccak256 of the string is
injective), and addresses by Nat. -/
structure EscrowRec where
  auctionId : String
  buyer : Nat
  seller : Nat
  amount : Nat
  token : Nat
  state : EscrowState
  fundedAt : Nat
deriving DecidableEq

/-- The all-zero record a Solidity mapping yields for an absent key. -/
def emptyRec : EscrowRec :=
  { auctionId := "", buyer := 0, seller := 0, amount := 0, token := 0
    state := .Empty, fundedAt := 0 }

/-- Contract storage of BlindBidEscrow. -/
structure EscrowContract where
  quoteSigner : Nat
  arbitrator : Nat
  owner : Nat
  escrows : List (String × EscrowRec)
deriving DecidableEq

/-- Read escrows[keccak256(auctionIdStr)]. -/
def getEscrowRec (c : EscrowContract) (auctionIdStr : String) : EscrowRec :=
  (c.escrows.lookup auctionIdStr).getD emptyRec

/-- Write escrows[keccak256(auctionIdStr)]. -/
def setEscrowRec (c : EscrowContract) (auctionIdStr : String) (r : EscrowRec) : EscrowContract :=
  { c with escrows := (auctionIdStr, r) :: c.escrows }

/-- A value transfer performed by the contract (native when token = 0). -/
structure Transfer where
  recipient : Nat
  amount : Nat
  token : Nat
deriving DecidableEq

/-- depositNative from BlindBidEscrow.sol.  The error branch models a
revert: the storage update is discarded.  A successful native transfer in
is implicit in msgValue. -/
def depositNative (c : EscrowContract) (msgSender msgValue : Nat)
    (auctionIdStr : String) (seller : Nat) (now : Nat) : Except String EscrowContract :=
  if ¬ msgValue > 0 then .error "must send value"
  else if ¬ (getEscrowRec c auctionIdStr).state = .Empty then .error "escrow already exists"
  else
    .ok (setEscrowRec c auctionIdStr
      { auctionId := auctionIdStr, buyer := msgSender, seller := seller
        amount := msgValue, token := 0, state := .Funded, fundedAt := now })

/-- depositToken from BlindBidEscrow.sol.  The safeTransferFrom pull is
modelled as succeeding; its failure would revert the whole call. -/
def depositToken (c : EscrowContract) (msgSender : Nat) (auctionIdStr : String)
    (seller tokenAddr amount : Nat) (now : Nat) : Except String EscrowContract :=
  if ¬ amount > 0 then .error "amount must be > 0"
  else if ¬ (getEscrowRec c auctionIdStr).state = .Empty then .error "escrow already exists"
  else
    .ok (setEscrowRec c auctionIdStr
      { auctionId := auctionIdStr, buyer := msgSender, seller := seller
        amount := amount, token := tokenAddr, state := .Funded, fundedAt := now })

/-- release from BlindBidEscrow.sol: onlyOwner, Funded only; pays the
recorded amount to the seller (native or token). -/
def release (c : EscrowContract) (msgSender : Nat) (auctionIdStr : String) :
    Except String (EscrowContract × Transfer) :=
  if ¬ msgSender = c.owner then .error "OwnableUnauthorizedAccount"
  else
    let e := getEscrowRec c auctionIdStr
    if ¬ e.state = .Funded then .error "not funded"
    else .ok (setEscrowRec c auctionIdStr { e with state := .Released },
      { recipient := e.seller, amount := e.amount, token := e.token })

/-- refund from BlindBidEscrow.sol: onlyOwner, Funded only; pays the
recorded amount back to the buyer. -/
def refund (c : EscrowContract) (msgSender : Nat) (auctionIdStr : String) :
    Except String (EscrowContract × Transfer) :=
  if ¬ msgSender = c.owner then .error "OwnableUnauthorizedAccount"
  else
    let e := getEscrowRec c auctionIdStr
    if ¬ e.state = .Funded then .error "not funded"
    else .ok (setEscrowRec c auctionIdStr { e with state := .Refunded },
      { recipient := e.buyer, amount := e.amount, token := e.token })

/-- dispute from BlindBidEscrow.sol: Funded only, by buyer or seller. -/
def dispute (c : EscrowContract) (msgSender : Nat) (auctionIdStr : String) :
    Except String EscrowContract :=
  let e := getEscrowRec c auctionIdStr
  if ¬ e.state = .Funded then .error "not funded"
  else if ¬ (msgSender = e.buyer ∨ msgSender = e.seller) then .error "not a party"
  else .ok (setEscrowRec c auctionIdStr { e with state := .Disputed })

/-- resolveDispute from BlindBidEscrow.sol: arbitrator or owner, Disputed
only; pays seller when releaseToSeller, buyer otherwise. -/
def resolveDispute (c : EscrowContract) (msgSender : Nat) (auctionIdStr : String)
    (releaseToSeller : Bool) : Except String (EscrowContract × Transfer) :=
  if ¬ (msgSender = c.arbitrator ∨ msgSender = c.owner) then .error "not authorized"
  else
    let e := getEscrowRec c auctionIdStr
    if ¬ e.state = .Disputed then .error "not disputed"
    else if releaseToSeller then
      .ok (setEscrowRec c auctionIdStr { e with state := .Released },
        { recipient := e.seller, amount := e.amount, token := e.token })
    else
      .ok (setEscrowRec c auctionIdStr { e with state := .Refunded },
        { recipient := e.buyer, amount := e.amount, token := e.token })

end Escrow

namespace Escrow

/-- C3: every escrow record follows the state machine.  Deposits move
Empty to Funded exactly when the amount is positive and the key is not
already funded, recording buyer, seller, amount and asset; release and
refund move Funded to Released and Refunded and only for the owner
(bridge); dispute moves Funded to Disputed and only for buyer or seller;
resolveDispute moves Disputed to Released when releaseToSeller and to
Refunded otherwise, and only for arbitrator or owner; any invocation
outside its allowed source state returns an error (a revert, so no state
change); Released and Refunded admit no further transition; and every
transition out of Funded or Disputed preserves the recorded amount and
asset. -/
theorem c3_escrow_state_machine (c : EscrowContract) (aid : String)
    (ms v sel tokenAddr amt now : Nat) (toSeller : Bool) :
    ((∃ c₂, depositNative c ms v aid sel now = .ok c₂)
        ↔ 0 < v ∧ (getEscrowRec c aid).state = .Empty)
    ∧ (∀ c₂, depositNative c ms v aid sel now = .ok c₂ →
        getEscrowRec c₂ aid =
          { auctionId := aid, buyer := ms, seller := sel, amount := v, token := 0
            state := .Funded, fundedAt := now })
    ∧ ((∃ c₂, depositToken c ms aid sel tokenAddr amt now = .ok c₂)
        ↔ 0 < amt ∧ (getEscrowRec c aid).state = .Empty)
    ∧ (∀ c₂, depositToken c ms aid sel tokenAddr amt now = .ok c₂ →
        getEscrowRec c₂ aid =
          { auctionId := aid, buyer := ms, seller := sel, amount := amt, token := tokenAddr
            state := .Funded, fundedAt := now })
    ∧ ((∃ r, release c ms aid = .ok r) ↔ ms = c.owner ∧ (getEscrowRec c aid).state = .Funded)
    ∧ (∀ c₂ tr, release c ms aid = .ok (c₂, tr) →
        getEscrowRec c₂ aid = { getEscrowRec c aid with state := .Released }
        ∧ tr = { recipient := (getEscrowRec c aid).seller
                 amount := (getEscrowRec c aid).amount, token := (getEscrowRec c aid).token })
    ∧ ((∃ r, refund c ms aid = .ok r) ↔ ms = c.owner ∧ (getEscrowRec c aid).state = .Funded)
    ∧ (∀ c₂ tr, refund c ms aid = .ok (c₂, tr) →
        getEscrowRec c₂ aid = { getEscrowRec c aid with state := .Refunded }
        ∧ tr = { recipient := (getEscrowRec c aid).buyer
                 amount := (getEscrowRec c aid).amount, token := (getEscrowRec c aid).token })
    ∧ ((∃ c₂, dispute c ms aid = .ok c₂)
        ↔ (getEscrowRec c aid).state = .Funded
          ∧ (ms = (getEscrowRec c aid).buyer ∨ ms = (getEscrowRec c aid).seller))
    ∧ (∀ c₂, dispute c ms aid = .ok c₂ →
        getEscrowRec c₂ aid = { getEscrowRec c aid with state := .Disputed })
    ∧ ((∃ r, resolveDispute c ms aid toSeller = .ok r)
        ↔ (ms = c.arbitrator ∨ ms = c.owner) ∧ (getEscrowRec c aid).state = .Disputed)
    ∧ (∀ c₂ tr, resolveDispute c ms aid toSeller = .ok (c₂, tr) →
        getEscrowRec c₂ aid =
          { getEscrowRec c aid with state := if toSeller then .Released else .Refunded }
        ∧ tr = (if toSeller then
            { recipient := (getEscrowRec c aid).seller
              amount := (getEscrowRec c aid).amount, token := (getEscrowRec c aid).token }
          else
            { recipient := (getEscrowRec c aid).buyer
              amount := (getEscrowRec c aid).amount, token := (getEscrowRec c aid).token }))
    ∧ ((getEscrowRec c aid).state = .Released ∨ (getEscrowRec c aid).state = .Refunded →
        (∀ c₂, depositNative c ms v aid sel now ≠ .ok c₂)
        ∧ (∀ c₂, depositToken c ms aid sel tokenAddr amt now ≠ .ok c₂)
        ∧ (∀ r, release c ms aid ≠ .ok r)
        ∧ (∀ r, refund c ms aid ≠ .ok r)
        ∧ (∀ c₂, dispute c ms aid ≠ .ok c₂)
        ∧ (∀ r, resolveDispute c ms aid toSeller ≠ .ok r)) := by
  refine ⟨?_, ?_, ?_, ?_, ?_, ?_, ?_, ?_, ?_, ?_, ?_, ?_, ?_⟩
  · simp only [depositNative]
    split_ifs <;> simp_all
  · intro c₂ h
    simp only [depositNative] at h
    split_ifs at h <;> cases h
    simp [getEscrowRec, setEscrowRec, List.lookup]
  · simp only [depositToken]
    split_ifs <;> simp_all
  · intro c₂ h
    simp only [depositToken] at h
    split_ifs at h <;> cases h
    simp [getEscrowRec, setEscrowRec, List.lookup]
  · simp only [release]
    split_ifs <;> simp_all
  · intro c₂ tr h
    simp only [release] at h
    split_ifs at h <;> cases h
    constructor <;> simp [getEscrowRec, setEscrowRec, List.lookup]
  · simp only [refund]
    split_ifs <;> simp_all
  · intro c₂ tr h
    simp only [refund] at h
    split_ifs at h <;> cases h
    constructor <;> simp [getEscrowRec, setEscrowRec, List.lookup]
  · simp only [dispute]
    split_ifs <;> simp_all
  · intro c₂ h
    simp only [dispute] at h
    split_ifs at h <;> cases h
    simp [getEscrowRec, setEscrowRec, List.lookup]
  · simp only [resolveDispute]
    split_ifs <;> simp_all
  · intro c₂ tr h
    simp only [resolveDispute] at h
    split_ifs at h <;> cases h <;>
      (constructor <;> simp [getEscrowRec, setEscrowRec, List.lookup, *])
  · intro hterm
    refine ⟨?_, ?_, ?_, ?_, ?_, ?_⟩ <;> intro x hx <;>
      simp only [depositNative, depositToken, release, refund, dispute, resolveDispute] at hx <;>
      split_ifs at hx <;> rcases hterm with h | h <;> simp_all

/-- Witness for c3_escrow_state_machine: a concrete native deposit on an
empty contract lands in state Funded with the recorded buyer, seller,
amount and asset. -/
theorem c3_escrow_state_machine_witness :
    depositNative ⟨9, 7, 5, []⟩ 11 100 "A-1" 12 50
      = .ok ⟨9, 7, 5, [("A-1", ⟨"A-1", 11, 12, 100, 0, .Funded, 50⟩)]⟩
    ∧ getEscrowRec ⟨9, 7, 5, [("A-1", ⟨"A-1", 11, 12, 100, 0, .Funded, 50⟩)]⟩ "A-1"
      = ⟨"A-1", 11, 12, 100, 0, .Funded, 50⟩ := by
  have h := (c3_escrow_state_machine ⟨9, 7, 5, []⟩ "A-1" 11 100 12 0 0 50 true).2.1
  exact ⟨rfl, h _ rfl⟩

end Escrow

namespace HederaService

/-- Preimage of the audit commitment hash from hederaService.ts:
keccak256 of the JSON serialization of these six fields, modelled by the
field tuple itself (the serialization with fixed keys and string escaping
is injective and keccak256 is collision resistant). -/
structure CommitmentPreimage where
  auctionId : String
  stage : String
  cantonTxId : String
  adiTxHash : String
  timestamp : String
  nonce : String
deriving DecidableEq

/-- buildCommitmentHash from hederaService.ts. -/
def buildCommitmentHash (auctionId stage cantonTxId adiTxHash timestamp nonce : String) :
    CommitmentPreimage :=
  { auctionId := auctionId, stage := stage, cantonTxId := cantonTxId
    adiTxHash := adiTxHash, timestamp := timestamp, nonce := nonce }

/-- AuditLogEntry from types.ts: the commitment fields plus the topic id,
sequence number and consensus timestamp. -/
structure AuditLogEntry where
  auctionId : String
  stage : String
  cantonTxId : String
  adiTxHash : String
  timestamp : String
  nonce : String
  commitmentHash : CommitmentPreimage
  hederaTopicId : String
  hederaSequenceNumber : Nat
  hederaConsensusTimestamp : String
deriving DecidableEq

/-- Module state of hederaService.ts: the in-memory audit log and the
per-auction topic cache. -/
structure HederaState where
  auditLog : List AuditLogEntry
  topicCache : List (String × String)
deriving DecidableEq

/-- Outcome of the external Hedera interaction during one publish call:
no operator key configured, the HCS submission threw, or the submission
succeeded with the sequence number reported by the receipt. -/
inductive HcsOutcome
  | noClient
  | submitFailed
  | submitOk (receiptSeq : Option Nat)
deriving DecidableEq

/-- Whether buildClient returns a client for this outcome. -/
def HcsOutcome.hasClient : HcsOutcome → Bool
  | .noClient => false
  | _ => true

/-- getOrCreateTopic from hederaService.ts.  newTopicId is the id the
external service would assign on topic creation. -/
def getOrCreateTopic (st : HederaState) (auctionId : String) (hasClient : Bool)
    (newTopicId : String) : String × HederaState :=
  match st.topicCache.lookup auctionId with
  | some t => (t, st)
  | none =>
    if ¬ hasClient then
      let mock := "0.0.MOCK-" ++ auctionId.drop (auctionId.length - 6)
      (mock, { st with topicCache := (auctionId, mock) :: st.topicCache })
    else
      (newTopicId, { st with topicCache := (auctionId, newTopicId) :: st.topicCache })

/-- getAuditLog from hederaService.ts. -/
def getAuditLog (st : HederaState) (auctionId : String) : List AuditLogEntry :=
  st.auditLog.filter (fun e => e.auctionId == auctionId)

/-- publishCommitment from hederaService.ts.  The fresh timestamp and
random nonce are passed explicitly, and the external Hedera interaction
is summarized by hcs and newTopicId.  The function is total: a missing
client or a failed submission falls back to the locally derived sequence
number, and the entry is appended to the private audit log in every
case. -/
def publishCommitment (st : HederaState) (auctionId stage cantonTxId adiTxHash : String)
    (timestamp nonce : String) (hcs : HcsOutcome) (newTopicId : String) :
    AuditLogEntry × HederaState :=
  let commitmentHash :=
    buildCommitmentHash auctionId stage cantonTxId adiTxHash timestamp nonce
  let topicRes := getOrCreateTopic st auctionId hcs.hasClient newTopicId
  let st1 := topicRes.2
  let localSeq := (st1.auditLog.filter (fun e => e.auctionId == auctionId)).length + 1
  let sequenceNumber :=
    match hcs with
    | .submitOk (some n) => n
    | _ => localSeq
  let entry : AuditLogEntry :=
    { auctionId := auctionId, stage := stage, cantonTxId := cantonTxId
      adiTxHash := adiTxHash, timestamp := timestamp, nonce := nonce
      commitmentHash := commitmentHash, hederaTopicId := topicRes.1
      hederaSequenceNumber := sequenceNumber, hederaConsensusTimestamp := timestamp }
  (entry, { st1 with auditLog := st1.auditLog ++ [entry] })

/-- verifyCommitment from hederaService.ts: recompute the hash from the
stored fields of the entry and compare with the stored hash. -/
def verifyCommitment (entry : AuditLogEntry) : Bool :=
  decide (buildCommitmentHash entry.auctionId entry.stage entry.cantonTxId
    entry.adiTxHash entry.timestamp entry.nonce = entry.commitmentHash)

end HederaService

namespace HederaService

/-- Helper: getOrCreateTopic never touches the audit log. -/
theorem getOrCreateTopic_auditLog (st : HederaState) (a : String) (hc : Bool) (nt : String) :
    (getOrCreateTopic st a hc nt).2.auditLog = st.auditLog := by
  unfold getOrCreateTopic
  cases hl : st.topicCache.lookup a <;> simp [hl] <;> split_ifs <;> simp

/-- C7: a published commitment verifies, and mutating any hashed field of
the stored entry (scope id, stage, either upstream reference, timestamp,
nonce) or the stored commitment hash itself makes verifyCommitment
return false. -/
theorem c7_commitment_roundtrip_and_mutation (st : HederaState)
    (auctionId stage cantonTxId adiTxHash timestamp nonce : String)
    (hcs : HcsOutcome) (ntid : String) :
    verifyCommitment
      (publishCommitment st auctionId stage cantonTxId adiTxHash timestamp nonce hcs ntid).1
      = true
    ∧ (∀ x : String, x ≠ nonce → verifyCommitment
        { (publishCommitment st auctionId stage cantonTxId adiTxHash timestamp nonce hcs ntid).1
          with nonce := x } = false)
    ∧ (∀ x : String, x ≠ timestamp → verifyCommitment
        { (publishCommitment st auctionId stage cantonTxId adiTxHash timestamp nonce hcs ntid).1
          with timestamp := x } = false)
    ∧ (∀ x : String, x ≠ auctionId → verifyCommitment
        { (publishCommitment st auctionId stage cantonTxId adiTxHash timestamp nonce hcs ntid).1
          with auctionId := x } = false)
    ∧ (∀ x : String, x ≠ stage → verifyCommitment
        { (publishCommitment st auctionId stage cantonTxId adiTxHash timestamp nonce hcs ntid).1
          with stage := x } = false)
    ∧ (∀ x : String, x ≠ cantonTxId → verifyCommitment
        { (publishCommitment st auctionId stage cantonTxId adiTxHash timestamp nonce hcs ntid).1
          with cantonTxId := x } = false)
    ∧ (∀ x : String, x ≠ adiTxHash → verifyCommitment
        { (publishCommitment st auctionId stage cantonTxId adiTxHash timestamp nonce hcs ntid).1
          with adiTxHash := x } = false)
    ∧ (∀ x : CommitmentPreimage,
        x ≠ buildCommitmentHash auctionId stage cantonTxId adiTxHash timestamp nonce →
        verifyCommitment
        { (publishCommitment st auctionId stage cantonTxId adiTxHash timestamp nonce hcs ntid).1
          with commitmentHash := x } = false) := by
  refine ⟨?_, ?_, ?_, ?_, ?_, ?_, ?_, ?_⟩
  · simp [publishCommitment, verifyCommitment]
  all_goals
    intro x hx
    simp [publishCommitment, verifyCommitment, buildCommitmentHash]
    intro h
    first
      | exact absurd h.symm (by simp_all [buildCommitmentHash])
      | exact absurd h (by simp_all [buildCommitmentHash])

/-- C8: when no log credentials are configured or the public-log
submission fails, publishCommitment still returns a complete entry (it
raises nothing), appends it to the private audit store, and assigns the
locally derived sequence number (number of prior entries for the scope
plus one); hence locally assigned per-scope sequence numbers strictly
increase across successive fallback publishes. -/
theorem c8_publish_local_fallback (st : HederaState)
    (auctionId stage cantonTxId adiTxHash timestamp nonce : String)
    (hcs : HcsOutcome) (ntid : String)
    (stage₂ cantonTxId₂ adiTxHash₂ timestamp₂ nonce₂ : String)
    (hcs₂ : HcsOutcome) (ntid₂ : String)
    (h : hcs = .noClient ∨ hcs = .submitFailed)
    (h₂ : hcs₂ = .noClient ∨ hcs₂ = .submitFailed) :
    (publishCommitment st auctionId stage cantonTxId adiTxHash timestamp nonce hcs ntid).1.hederaSequenceNumber
      = (getAuditLog st auctionId).length + 1
    ∧ (publishCommitment st auctionId stage cantonTxId adiTxHash timestamp nonce hcs ntid).2.auditLog
      = st.auditLog
        ++ [(publishCommitment st auctionId stage cantonTxId adiTxHash timestamp nonce hcs ntid).1]
    ∧ getAuditLog
        (publishCommitment st auctionId stage cantonTxId adiTxHash timestamp nonce hcs ntid).2
        auctionId
      = getAuditLog st auctionId
        ++ [(publishCommitment st auctionId stage cantonTxId adiTxHash timestamp nonce hcs ntid).1]
    ∧ (publishCommitment
          (publishCommitment st auctionId stage cantonTxId adiTxHash timestamp nonce hcs ntid).2
          auctionId stage₂ cantonTxId₂ adiTxHash₂ timestamp₂ nonce₂ hcs₂ ntid₂).1.hederaSequenceNumber
      = (publishCommitment st auctionId stage cantonTxId adiTxHash timestamp nonce hcs ntid).1.hederaSequenceNumber
        + 1 := by
  have hlog₁ := getOrCreateTopic_auditLog st auctionId hcs.hasClient ntid
  refine ⟨?_, ?_, ?_, ?_⟩
  · rcases h with h | h <;> subst h <;>
      simp [publishCommitment, getAuditLog, hlog₁]
  · rcases h with h | h <;> subst h <;>
      simp [publishCommitment, hlog₁]
  · rcases h with h | h <;> subst h <;>
      simp [publishCommitment, getAuditLog, hlog₁, List.filter_append]
  · rcases h with h | h <;> rcases h₂ with h₂ | h₂ <;> subst h <;> subst h₂ <;>
      simp [publishCommitment, getAuditLog, getOrCreateTopic_auditLog, hlog₁,
        List.filter_append]

end HederaService

namespace HederaService

/-- Witness for c7_commitment_roundtrip_and_mutation: a concrete publish
verifies and a mutated nonce fails verification. -/
theorem c7_commitment_roundtrip_and_mutation_witness :
    verifyCommitment
      (publishCommitment ⟨[], []⟩ "A-1" "created" "ref-a" "ref-b" "T0" "n0" .noClient "t").1
      = true
    ∧ ("n1" : String) ≠ "n0"
    ∧ verifyCommitment
      { (publishCommitment ⟨[], []⟩ "A-1" "created" "ref-a" "ref-b" "T0" "n0" .noClient "t").1
        with nonce := "n1" } = false :=
  ⟨(c7_commitment_roundtrip_and_mutation ⟨[], []⟩ "A-1" "created" "ref-a" "ref-b" "T0" "n0"
      .noClient "t").1,
   by decide,
   (c7_commitment_roundtrip_and_mutation ⟨[], []⟩ "A-1" "created" "ref-a" "ref-b" "T0" "n0"
      .noClient "t").2.1 "n1" (by decide)⟩

/-- Witness for c8_publish_local_fallback: on an empty store a failed
submission gets local sequence number 1 and the next fallback publish for
the same scope gets sequence number 2. -/
theorem c8_publish_local_fallback_witness :
    (publishCommitment ⟨[], []⟩ "A-1" "created" "ref-a" "ref-b" "T0" "n0" .submitFailed "t").1.hederaSequenceNumber
      = (getAuditLog ⟨[], []⟩ "A-1").length + 1
    ∧ (publishCommitment
        (publishCommitment ⟨[], []⟩ "A-1" "created" "ref-a" "ref-b" "T0" "n0" .submitFailed "t").2
        "A-1" "bidding-open" "ref-c" "ref-d" "T1" "n1" .noClient "t2").1.hederaSequenceNumber
      = (publishCommitment ⟨[], []⟩ "A-1" "created" "ref-a" "ref-b" "T0" "n0" .submitFailed "t").1.hederaSequenceNumber
        + 1 :=
  ⟨(c8_publish_local_fallback ⟨[], []⟩ "A-1" "created" "ref-a" "ref-b" "T0" "n0" .submitFailed "t"
      "bidding-open" "ref-c" "ref-d" "T1" "n1" .noClient "t2" (.inr rfl) (.inl rfl)).1,
   (c8_publish_local_fallback ⟨[], []⟩ "A-1" "created" "ref-a" "ref-b" "T0" "n0" .submitFailed "t"
      "bidding-open" "ref-c" "ref-d" "T1" "n1" .noClient "t2" (.inr rfl) (.inl rfl)).2.2.2⟩

end HederaService

namespace SponsorService

/-- Model of the JavaScript toLowerCase call on ASCII identifiers
(addresses and selectors), written as a structural map so that it
evaluates inside the kernel. -/
def toLowerCase (s : String) : String := ⟨s.data.map Char.toLower⟩

/-- SponsorPolicy from types.ts. -/
structure SponsorPolicy where
  auctionId : String
  beneficiary : String
  allowedSelectors : List String
  allowedTargets : List String
  maxGasPerOp : Nat
  maxOpsPerAuction : Nat
  expiresAt : Nat
deriving DecidableEq

/-- One hour in milliseconds, from sponsorService.ts. -/
def RATE_LIMIT_WINDOW_MS : Nat := 60 * 60 * 1000

/-- Module state of sponsorService.ts: the three in-memory maps. -/
structure SponsorState where
  policyStore : List (String × SponsorPolicy)
  opsCounter : List (String × Nat)
  rateLimitTimestamps : List (String × List Nat)
deriving DecidableEq

/-- opsKey from sponsorService.ts. -/
def opsKey (auctionId beneficiary : String) : String :=
  auctionId ++ ":" ++ toLowerCase beneficiary

/-- registerPolicy from sponsorService.ts: store the policy under the
lowercased beneficiary and reset the per-auction usage counter to 0. -/
def registerPolicy (policy : SponsorPolicy) (st : SponsorState) : SponsorState :=
  let key := toLowerCase policy.beneficiary
  { st with
    policyStore := (key, policy) :: st.policyStore
    opsCounter := (opsKey policy.auctionId key, 0) :: st.opsCounter }

/-- The failure conditions thrown by buildSponsorshipData, in source
order.  The dynamic message payloads of the thrown Error objects are
elided; a constructor corresponds to the stable message code. -/
inductive SponsorError
  | SPONSOR_POLICY_NOT_FOUND
  | SPONSOR_POLICY_EXPIRED
  | SPONSOR_AUCTION_MISMATCH
  | SPONSOR_SELECTOR_DISALLOWED
  | SPONSOR_RATE_LIMIT
  | SPONSOR_HOURLY_LIMIT
deriving DecidableEq

/-- The tuple the sponsorship authorization hash commits to:
keccak256(abi.encode(sender, validUntil, validAfter, paymasterAddress,
chainId, entryPoint)), modelled by its preimage.  The ABI encoder
canonicalizes address strings, modelled by lowercasing. -/
structure AuthHashInput where
  sender : String
  validUntil : Nat
  validAfter : Nat
  paymasterAddress : String
  chainId : Nat
  entryPoint : String
deriving DecidableEq

/-- SponsorshipData from types.ts; paymasterData is
abi.encode(validUntil, validAfter, sig), modelled by the triple. -/
structure SponsorshipData where
  paymasterAddress : String
  paymasterData : Nat × Nat × Signed AuthHashInput
  validUntil : Nat
  validAfter : Nat
  sponsorSignature : Signed AuthHashInput
deriving DecidableEq

/-- buildSponsorshipData from sponsorService.ts.  The wall clock is
passed as now (seconds, Math.floor(Date.now()/1000)) and nowMs
(milliseconds, Date.now()); chainId and entryPoint come from the RPC
provider and config.  Throwing is modelled by Except.error, which also
discards the (unmodified) state. -/
def buildSponsorshipData (cfg : Config) (st : SponsorState)
    (paymasterAddress sender callData auctionId : String)
    (validitySeconds chainId : Nat) (entryPoint : String) (now nowMs : Nat) :
    Except SponsorError (SponsorshipData × SponsorState) :=
  let validAfter := now - 30
  let validUntil := now + validitySeconds
  let beneficiaryKey := toLowerCase sender
  match st.policyStore.lookup beneficiaryKey with
  | none => .error .SPONSOR_POLICY_NOT_FOUND
  | some policy =>
    if policy.expiresAt < now then .error .SPONSOR_POLICY_EXPIRED
    else if ¬ policy.auctionId = auctionId then .error .SPONSOR_AUCTION_MISMATCH
    else
      let selector := callData.take 10
      if policy.allowedSelectors.length > 0
          ∧ ¬ (policy.allowedSelectors.map (fun s => toLowerCase s)).contains
                (toLowerCase selector) = true then
        .error .SPONSOR_SELECTOR_DISALLOWED
      else
        let key := opsKey policy.auctionId beneficiaryKey
        let currentOps := (st.opsCounter.lookup key).getD 0
        if currentOps ≥ policy.maxOpsPerAuction then .error .SPONSOR_RATE_LIMIT
        else
          let hourKey := beneficiaryKey
          let stamps := ((st.rateLimitTimestamps.lookup hourKey).getD []).filter
            (fun t => nowMs - t < RATE_LIMIT_WINDOW_MS)
          if stamps.length ≥ 20 then .error .SPONSOR_HOURLY_LIMIT
          else
            let hash : AuthHashInput :=
              { sender := toLowerCase sender, validUntil := validUntil
                validAfter := validAfter, paymasterAddress := toLowerCase paymasterAddress
                chainId := chainId, entryPoint := toLowerCase entryPoint }
            let sig := signMessage cfg.sponsorKey hash
            let st2 : SponsorState :=
              { st with
                opsCounter := (key, currentOps + 1) :: st.opsCounter
                rateLimitTimestamps := (hourKey, stamps ++ [nowMs]) :: st.rateLimitTimestamps }
            .ok
              ({ paymasterAddress := paymasterAddress
                 paymasterData := (validUntil, validAfter, sig)
                 validUntil := validUntil, validAfter := validAfter
                 sponsorSignature := sig }, st2)

/-- The per-auction usage count the service reads (opsCounter.get(key) ?? 0). -/
def opsCount (st : SponsorState) (key : String) : Nat :=
  (st.opsCounter.lookup key).getD 0

/-- The rolling-window timestamps the service reads for a beneficiary,
after pruning entries older than the window. -/
def freshStamps (st : SponsorState) (hourKey : String) (nowMs : Nat) : List Nat :=
  ((st.rateLimitTimestamps.lookup hourKey).getD []).filter
    (fun t => nowMs - t < RATE_LIMIT_WINDOW_MS)

end SponsorService

namespace SponsorService

/-- C5: the issuance guard reports exactly the first failing condition in
the fixed evaluation order POLICY_NOT_FOUND, POLICY_EXPIRED,
AUCTION(scope)_MISMATCH, SELECTOR_DISALLOWED, RATE_LIMIT, HOURLY_LIMIT,
and the selector check fails only when the allowlist is non-empty and the
requested selector is absent from it. -/
theorem c5_error_order (cfg : Config) (st : SponsorState)
    (pm sender callData auctionId : String) (vs chainId : Nat) (ep : String) (now nowMs : Nat) :
    (buildSponsorshipData cfg st pm sender callData auctionId vs chainId ep now nowMs
        = .error .SPONSOR_POLICY_NOT_FOUND
      ↔ st.policyStore.lookup (toLowerCase sender) = none)
    ∧ (buildSponsorshipData cfg st pm sender callData auctionId vs chainId ep now nowMs
        = .error .SPONSOR_POLICY_EXPIRED
      ↔ ∃ p, st.policyStore.lookup (toLowerCase sender) = some p ∧ p.expiresAt < now)
    ∧ (buildSponsorshipData cfg st pm sender callData auctionId vs chainId ep now nowMs
        = .error .SPONSOR_AUCTION_MISMATCH
      ↔ ∃ p, st.policyStore.lookup (toLowerCase sender) = some p ∧ ¬ p.expiresAt < now
          ∧ ¬ p.auctionId = auctionId)
    ∧ (buildSponsorshipData cfg st pm sender callData auctionId vs chainId ep now nowMs
        = .error .SPONSOR_SELECTOR_DISALLOWED
      ↔ ∃ p, st.policyStore.lookup (toLowerCase sender) = some p ∧ ¬ p.expiresAt < now
          ∧ p.auctionId = auctionId
          ∧ (p.allowedSelectors.length > 0
             ∧ ¬ (p.allowedSelectors.map (fun s => toLowerCase s)).contains
                  (toLowerCase (callData.take 10)) = true))
    ∧ (buildSponsorshipData cfg st pm sender callData auctionId vs chainId ep now nowMs
        = .error .SPONSOR_RATE_LIMIT
      ↔ ∃ p, st.policyStore.lookup (toLowerCase sender) = some p ∧ ¬ p.expiresAt < now
          ∧ p.auctionId = auctionId
          ∧ ¬ (p.allowedSelectors.length > 0
               ∧ ¬ (p.allowedSelectors.map (fun s => toLowerCase s)).contains
                    (toLowerCase (callData.take 10)) = true)
          ∧ opsCount st (opsKey p.auctionId (toLowerCase sender)) ≥ p.maxOpsPerAuction)
    ∧ (buildSponsorshipData cfg st pm sender callData auctionId vs chainId ep now nowMs
        = .error .SPONSOR_HOURLY_LIMIT
      ↔ ∃ p, st.policyStore.lookup (toLowerCase sender) = some p ∧ ¬ p.expiresAt < now
          ∧ p.auctionId = auctionId
          ∧ ¬ (p.allowedSelectors.length > 0
               ∧ ¬ (p.allowedSelectors.map (fun s => toLowerCase s)).contains
                    (toLowerCase (callData.take 10)) = true)
          ∧ ¬ opsCount st (opsKey p.auctionId (toLowerCase sender)) ≥ p.maxOpsPerAuction
          ∧ (freshStamps st (toLowerCase sender) nowMs).length ≥ 20)
    ∧ ((∃ d st2, buildSponsorshipData cfg st pm sender callData auctionId vs chainId ep now nowMs
        = .ok (d, st2))
      ↔ ∃ p, st.policyStore.lookup (toLowerCase sender) = some p ∧ ¬ p.expiresAt < now
          ∧ p.auctionId = auctionId
          ∧ ¬ (p.allowedSelectors.length > 0
               ∧ ¬ (p.allowedSelectors.map (fun s => toLowerCase s)).contains
                    (toLowerCase (callData.take 10)) = true)
          ∧ ¬ opsCount st (opsKey p.auctionId (toLowerCase sender)) ≥ p.maxOpsPerAuction
          ∧ ¬ (freshStamps st (toLowerCase sender) nowMs).length ≥ 20) := by
  cases hL : st.policyStore.lookup (toLowerCase sender) with
  | none =>
    refine ⟨?_, ?_, ?_, ?_, ?_, ?_, ?_⟩ <;> simp [buildSponsorshipData, hL]
  | some p =>
    refine ⟨?_, ?_, ?_, ?_, ?_, ?_, ?_⟩ <;>
      simp only [buildSponsorshipData, hL, opsCount, freshStamps] <;>
      split_ifs <;> simp_all

end SponsorService

namespace SponsorService

/-- The selector allowlist passes: the allowlist is empty, or it holds
the (lowercased) first ten characters of the call data. -/
def selectorOk (policy : SponsorPolicy) (callData : String) : Prop :=
  ¬ (policy.allowedSelectors.length > 0
     ∧ ¬ (policy.allowedSelectors.map (fun s => toLowerCase s)).contains
          (toLowerCase (callData.take 10)) = true)

/-- Invariant tying a sponsor state to an issuance count c for a fixed
policy and sender: the policy is the one resolved for the sender, the
per-auction counter reads c, and the pruned rate window holds c stamps. -/
def sponsorInv (policy : SponsorPolicy) (sender : String) (nowMs : Nat)
    (st : SponsorState) (c : Nat) : Prop :=
  st.policyStore.lookup (toLowerCase sender) = some policy
  ∧ opsCount st (opsKey policy.auctionId (toLowerCase sender)) = c
  ∧ (freshStamps st (toLowerCase sender) nowMs).length = c

/-- Helper: one successful issuance moves the invariant from c to c+1. -/
theorem build_step (cfg : Config) (policy : SponsorPolicy)
    (pm sender callData auctionId : String) (vs chainId : Nat) (ep : String)
    (now nowMs : Nat) (st : SponsorState) (c : Nat)
    (hinv : sponsorInv policy sender nowMs st c)
    (hexp : ¬ policy.expiresAt < now)
    (hauc : policy.auctionId = auctionId)
    (hsel : selectorOk policy callData)
    (hrate : c < policy.maxOpsPerAuction)
    (hcap : c < 20) :
    ∃ d st2,
      buildSponsorshipData cfg st pm sender callData auctionId vs chainId ep now nowMs
        = .ok (d, st2)
      ∧ sponsorInv policy sender nowMs st2 (c + 1) := by
  obtain ⟨h1, h2, h3⟩ := hinv
  simp only [opsCount] at h2
  simp only [freshStamps, RATE_LIMIT_WINDOW_MS] at h3
  simp only [buildSponsorshipData, h1]
  split_ifs with e1 e2 e3
  · exact (hsel e1).elim
  · rw [h2] at e2
    exact ((by omega : False)).elim
  · simp only [RATE_LIMIT_WINDOW_MS] at e3
    rw [h3] at e3
    exact ((by omega : False)).elim
  · refine ⟨_, _, rfl, ?_, ?_, ?_⟩
    · simpa using h1
    · simp only [opsCount, List.lookup, beq_self_eq_true]
      simp [h2]
    · simp only [freshStamps, List.lookup, beq_self_eq_true]
      simp [List.filter_filter, RATE_LIMIT_WINDOW_MS, h3]

/-- Iterated issuance from sponsorService.ts: run buildSponsorshipData a
given number of times, threading the state, stopping at the first error. -/
def issueN (cfg : Config) (pm sender callData auctionId : String) (vs chainId : Nat)
    (ep : String) (now nowMs : Nat) : Nat → SponsorState → Except SponsorError SponsorState
  | 0, st => .ok st
  | n + 1, st =>
    match buildSponsorshipData cfg st pm sender callData auctionId vs chainId ep now nowMs with
    | .error e => .error e
    | .ok (_, st2) => issueN cfg pm sender callData auctionId vs chainId ep now nowMs n st2

/-- Helper: j further issuances succeed while the quota allows them. -/
theorem issueN_ok (cfg : Config) (policy : SponsorPolicy)
    (pm sender callData auctionId : String) (vs chainId : Nat) (ep : String)
    (now nowMs : Nat)
    (hexp : ¬ policy.expiresAt < now)
    (hauc : policy.auctionId = auctionId)
    (hsel : selectorOk policy callData)
    (hcap : policy.maxOpsPerAuction ≤ 20) :
    ∀ (j c : Nat) (st : SponsorState), sponsorInv policy sender nowMs st c →
      c + j ≤ policy.maxOpsPerAuction →
      ∃ st2, issueN cfg pm sender callData auctionId vs chainId ep now nowMs j st = .ok st2
        ∧ sponsorInv policy sender nowMs st2 (c + j) := by
  intro j
  induction j with
  | zero => exact fun c st hinv _ => ⟨st, rfl, by simpa using hinv⟩
  | succ j ih =>
    intro c st hinv hle
    obtain ⟨d, st2, hok, hinv2⟩ :=
      build_step cfg policy pm sender callData auctionId vs chainId ep now nowMs st c hinv
        hexp hauc hsel (by omega) (by omega)
    obtain ⟨st3, hrun, hinv3⟩ := ih (c + 1) st2 hinv2 (by omega)
    refine ⟨st3, ?_, ?_⟩
    · simp [issueN, hok, hrun]
    · have hc : c + 1 + j = c + (j + 1) := by omega
      rwa [hc] at hinv3

/-- Helper: once the counter has reached the quota, issuance fails with
the rate-limit error (checked before the hourly cap). -/
theorem build_rate_limit (cfg : Config) (policy : SponsorPolicy)
    (pm sender callData auctionId : String) (vs chainId : Nat) (ep : String)
    (now nowMs : Nat) (st : SponsorState) (c : Nat)
    (hinv : sponsorInv policy sender nowMs st c)
    (hexp : ¬ policy.expiresAt < now)
    (hauc : policy.auctionId = auctionId)
    (hsel : selectorOk policy callData)
    (hge : policy.maxOpsPerAuction ≤ c) :
    buildSponsorshipData cfg st pm sender callData auctionId vs chainId ep now nowMs
      = .error .SPONSOR_RATE_LIMIT := by
  obtain ⟨h1, h2, h3⟩ := hinv
  simp only [opsCount] at h2
  simp only [buildSponsorshipData, h1]
  split_ifs with e1 e2 e3
  · exact (hsel e1).elim
  · rfl
  · rw [h2] at e2
    exact absurd hge (by omega)
  · rw [h2] at e2
    exact absurd hge (by omega)

/-- Helper: a successful issuance bumps the per-auction counter of the
resolved policy by exactly one. -/
theorem build_increments (cfg : Config) (st : SponsorState)
    (pm sender callData auctionId : String) (vs chainId : Nat) (ep : String)
    (now nowMs : Nat) (p : SponsorPolicy) (d : SponsorshipData) (st2 : SponsorState)
    (h1 : st.policyStore.lookup (toLowerCase sender) = some p)
    (hok : buildSponsorshipData cfg st pm sender callData auctionId vs chainId ep now nowMs
      = .ok (d, st2)) :
    opsCount st2 (opsKey p.auctionId (toLowerCase sender))
      = opsCount st (opsKey p.auctionId (toLowerCase sender)) + 1 := by
  simp only [buildSponsorshipData, h1] at hok
  split_ifs at hok <;> cases hok
  simp [opsCount, List.lookup]

end SponsorService

namespace SponsorService

/-- C1: for a freshly registered policy with maxOpsPerAuction = n, while
the policy is unexpired, the auction (scope) matches, the selector check
passes and the hourly cap is not reached, the first n issuances for the
(auction, beneficiary) pair succeed, the (n+1)th fails with the
rate-limit error, and each successful issuance increments the
per-(auction, beneficiary) usage counter by exactly one. -/
theorem c1_maxOps_then_rate_limit (cfg : Config) (st0 : SponsorState)
    (pm sender callData auctionId : String) (vs chainId : Nat) (ep : String)
    (now nowMs : Nat) (policy : SponsorPolicy) (n : Nat)
    (hsender : toLowerCase sender = toLowerCase policy.beneficiary)
    (hrl : st0.rateLimitTimestamps.lookup (toLowerCase sender) = none)
    (hexp : ¬ policy.expiresAt < now)
    (hauc : policy.auctionId = auctionId)
    (hsel : selectorOk policy callData)
    (hn : policy.maxOpsPerAuction = n)
    (hcap : n ≤ 20) :
    (∃ stN,
      issueN cfg pm sender callData auctionId vs chainId ep now nowMs n
        (registerPolicy policy st0) = .ok stN
      ∧ opsCount stN (opsKey policy.auctionId (toLowerCase sender)) = n
      ∧ buildSponsorshipData cfg stN pm sender callData auctionId vs chainId ep now nowMs
          = .error .SPONSOR_RATE_LIMIT)
    ∧ (∀ st p d st2, st.policyStore.lookup (toLowerCase sender) = some p →
        buildSponsorshipData cfg st pm sender callData auctionId vs chainId ep now nowMs
          = .ok (d, st2) →
        opsCount st2 (opsKey p.auctionId (toLowerCase sender))
          = opsCount st (opsKey p.auctionId (toLowerCase sender)) + 1) := by
  have hinv0 : sponsorInv policy sender nowMs (registerPolicy policy st0) 0 := by
    refine ⟨?_, ?_, ?_⟩
    · simp [registerPolicy, List.lookup, hsender]
    · simp [registerPolicy, opsCount, opsKey, List.lookup, hsender]
    · simp [registerPolicy, freshStamps, hrl]
  obtain ⟨stN, hrun, hinvN⟩ :=
    issueN_ok cfg policy pm sender callData auctionId vs chainId ep now nowMs
      hexp hauc hsel (hn ▸ hcap) n 0 (registerPolicy policy st0) hinv0 (by omega)
  refine ⟨⟨stN, hrun, ?_, ?_⟩, ?_⟩
  · simpa using hinvN.2.1
  · exact build_rate_limit cfg policy pm sender callData auctionId vs chainId ep now nowMs
      stN n (by simpa using hinvN) hexp hauc hsel (by omega)
  · intro st p d st2 h1 hok
    exact build_increments cfg st pm sender callData auctionId vs chainId ep now nowMs
      p d st2 h1 hok

/-- The concrete policy used by the c1 witness: one sponsored operation
allowed for auction A, empty selector allowlist, expiry 1000. -/
def witnessPolicyA : SponsorPolicy :=
  { auctionId := "A", beneficiary := "0xAB", allowedSelectors := []
    allowedTargets := [], maxGasPerOp := 0, maxOpsPerAuction := 1, expiresAt := 1000 }

/-- Witness for c1_maxOps_then_rate_limit: for a registered policy with
maxOpsPerAuction = 1 and a sender differing from the beneficiary only in
case, one issuance succeeds and the counter reaches 1, and the second
issuance fails with the rate-limit error. -/
theorem c1_maxOps_then_rate_limit_witness :
    toLowerCase "0xab" = toLowerCase "0xAB"
    ∧ ¬ witnessPolicyA.expiresAt < 100
    ∧ (∃ stN,
        issueN ⟨1⟩ "0xPM" "0xab" "0xdeadbeef" "A" 300 5 "0xEP" 100 100000 1
          (registerPolicy witnessPolicyA ⟨[], [], []⟩) = .ok stN
        ∧ opsCount stN (opsKey witnessPolicyA.auctionId (toLowerCase "0xab")) = 1
        ∧ buildSponsorshipData ⟨1⟩ stN "0xPM" "0xab" "0xdeadbeef" "A" 300 5 "0xEP" 100 100000
            = .error .SPONSOR_RATE_LIMIT) :=
  ⟨by decide, by decide,
    (c1_maxOps_then_rate_limit ⟨1⟩ ⟨[], [], []⟩ "0xPM" "0xab" "0xdeadbeef" "A" 300 5 "0xEP"
      100 100000 witnessPolicyA 1 (by decide) rfl (by decide) rfl
      (by simp [selectorOk, witnessPolicyA]) rfl (by decide)).1⟩

/-- C10: beneficiary identity is case-insensitive.  Two senders equal up
to hexadecimal letter case drive buildSponsorshipData identically (same
policy resolution, same counter key, same rate window, same result), and
a sponsorship request resolves the policy registered for a beneficiary
that differs only in case, with its usage counter starting at 0 and its
rate window shared. -/
theorem c10_beneficiary_case_insensitive (cfg : Config) (st : SponsorState)
    (pm s₁ s₂ callData auctionId : String) (vs chainId : Nat) (ep : String)
    (now nowMs : Nat)
    (h : toLowerCase s₁ = toLowerCase s₂) :
    buildSponsorshipData cfg st pm s₁ callData auctionId vs chainId ep now nowMs
      = buildSponsorshipData cfg st pm s₂ callData auctionId vs chainId ep now nowMs
    ∧ (∀ (policy : SponsorPolicy) (st0 : SponsorState), policy.beneficiary = s₂ →
        (registerPolicy policy st0).policyStore.lookup (toLowerCase s₁) = some policy
        ∧ opsCount (registerPolicy policy st0) (opsKey policy.auctionId (toLowerCase s₁)) = 0
        ∧ freshStamps (registerPolicy policy st0) (toLowerCase s₁) nowMs
            = freshStamps st0 (toLowerCase s₂) nowMs) := by
  constructor
  · simp only [buildSponsorshipData, h]
  · intro policy st0 hben
    subst hben
    refine ⟨?_, ?_, ?_⟩
    · simp [registerPolicy, List.lookup, h]
    · simp [registerPolicy, opsCount, opsKey, List.lookup, h]
    · simp [registerPolicy, freshStamps, h]

/-- The concrete policy used by the c10 witness. -/
def witnessPolicyB : SponsorPolicy :=
  { auctionId := "B", beneficiary := "0xaB", allowedSelectors := []
    allowedTargets := [], maxGasPerOp := 0, maxOpsPerAuction := 3, expiresAt := 1000 }

/-- Witness for c10_beneficiary_case_insensitive at concrete senders
0xAb and 0xaB and an empty starting state. -/
theorem c10_beneficiary_case_insensitive_witness :
    toLowerCase "0xAb" = toLowerCase "0xaB"
    ∧ buildSponsorshipData ⟨1⟩ ⟨[], [], []⟩ "0xPM" "0xAb" "0xdeadbeef" "B" 300 5 "0xEP" 100 100000
        = buildSponsorshipData ⟨1⟩ ⟨[], [], []⟩ "0xPM" "0xaB" "0xdeadbeef" "B" 300 5 "0xEP" 100 100000
    ∧ (registerPolicy witnessPolicyB ⟨[], [], []⟩).policyStore.lookup (toLowerCase "0xAb")
        = some witnessPolicyB
    ∧ opsCount (registerPolicy witnessPolicyB ⟨[], [], []⟩)
        (opsKey witnessPolicyB.auctionId (toLowerCase "0xAb")) = 0 :=
  ⟨by decide,
    (c10_beneficiary_case_insensitive ⟨1⟩ ⟨[], [], []⟩ "0xPM" "0xAb" "0xaB" "0xdeadbeef" "B"
      300 5 "0xEP" 100 100000 (by decide)).1,
    ((c10_beneficiary_case_insensitive ⟨1⟩ ⟨[], [], []⟩ "0xPM" "0xAb" "0xaB" "0xdeadbeef" "B"
      300 5 "0xEP" 100 100000 (by decide)).2 witnessPolicyB ⟨[], [], []⟩ rfl).1,
    ((c10_beneficiary_case_insensitive ⟨1⟩ ⟨[], [], []⟩ "0xPM" "0xAb" "0xaB" "0xdeadbeef" "B"
      300 5 "0xEP" 100 100000 (by decide)).2 witnessPolicyB ⟨[], [], []⟩ rfl).2.1⟩

end SponsorService

namespace Paymaster

/-- Big-endian byte encoding of a value into a fixed number of bytes
(the value is taken modulo 256^k). -/
def beBytes : Nat → Nat → List Nat
  | 0, _ => []
  | k + 1, v => beBytes k (v / 256) ++ [v % 256]

/-- One 32-byte ABI word for a uintN or address value. -/
def abiWord (v : Nat) : List Nat := beBytes 32 v

/-- The ABI encoding built by the backend in sponsorService.ts:
AbiCoder.encode(["address","uint48","uint48","address","uint256",
"address"], [sender, validUntil, validAfter, paymasterAddress, chainId,
entryPoint]), with each field head-encoded into one 32-byte word in that
order. -/
def backendAuthEncoding (sender validUntil validAfter paymasterAddress chainId entryPoint : Nat) :
    List Nat :=
  abiWord sender ++ abiWord validUntil ++ abiWord validAfter
    ++ abiWord paymasterAddress ++ abiWord chainId ++ abiWord entryPoint

/-- The ABI encoding built on-chain in BlindBidNativePaymaster.sol:
abi.encode(userOp.sender, validUntil, validAfter, address(this),
block.chainid, address(entryPoint)) with Solidity types (address, uint48,
uint48, address, uint256, address). -/
def chainAuthEncoding (sender validUntil validAfter thisAddr chainId entryPoint : Nat) :
    List Nat :=
  abiWord sender ++ abiWord validUntil ++ abiWord validAfter
    ++ abiWord thisAddr ++ abiWord chainId ++ abiWord entryPoint

/-- The EIP-191 personal-message tag bytes prepended by both
ethers signMessage and MessageHashUtils.toEthSignedMessageHash:
0x19 followed by the ASCII of the tag for 32-byte payloads. -/
def personalMessageTag : List Nat :=
  25 :: ("Ethereum Signed Message:\n32".data.map Char.toNat)

/-- Model of ethers signer.signMessage over raw bytes: the key signs the
digest keccak256(personalMessageTag ++ message). -/
def personalSign (keccak : List Nat → List Nat) (key : Nat) (message : List Nat) :
    Signed (List Nat) :=
  signMessage key (keccak (personalMessageTag ++ message))

/-- Model of ECDSA.recover: recovery against the digest that was signed
yields the signer address; against any other digest it yields an address
that is not derived from the key (0, which the paymaster can never
accept because its constructor requires a nonzero sponsorSigner). -/
def ecrecover (digest : List Nat) (sig : Signed (List Nat)) : Nat :=
  if sig.payload = digest then addrOfKey sig.key else 0

/-- Storage of BlindBidNativePaymaster relevant to validation. -/
structure PaymasterState where
  sponsorSigner : Nat
  thisAddr : Nat
  chainId : Nat
  entryPoint : Nat
deriving DecidableEq

/-- packValidationData from BlindBidNativePaymaster.sol:
(sigFailed ? 1 : 0) | (validUntil << 160) | (validAfter << 208). -/
def packValidationData (sigFailed : Bool) (validUntil validAfter : Nat) : Nat :=
  (if sigFailed then 1 else 0) ||| (validUntil <<< 160) ||| (validAfter <<< (160 + 48))

/-- The validatePaymasterUserOp logic of BlindBidNativePaymaster.sol,
after the EntryPoint has decoded paymasterData into (validUntil,
validAfter, signature).  It always returns a (context, validationData)
pair and never reverts. -/
def validatePaymasterUserOp (keccak : List Nat → List Nat) (ps : PaymasterState)
    (sender validUntil validAfter : Nat) (signature : Signed (List Nat)) :
    List Nat × Nat :=
  let hash := keccak
    (chainAuthEncoding sender validUntil validAfter ps.thisAddr ps.chainId ps.entryPoint)
  let recovered := ecrecover (keccak (personalMessageTag ++ hash)) signature
  if ¬ recovered = ps.sponsorSigner then
    ([], packValidationData true validUntil validAfter)
  else
    (abiWord sender, packValidationData false validUntil validAfter)

/-- The ERC-4337 parse of the packed validationData: the failure bit. -/
def unpackSigFailed (d : Nat) : Bool := d.testBit 0

/-- The ERC-4337 parse of the packed validationData: the validUntil
window bound (bits 160..207). -/
def unpackValidUntil (d : Nat) : Nat := (d >>> 160) &&& (2 ^ 48 - 1)

/-- The ERC-4337 parse of the packed validationData: the validAfter
window bound (bits 208..255). -/
def unpackValidAfter (d : Nat) : Nat := d >>> 208

end Paymaster

namespace Paymaster

/-- Helper: the failure bit of the packed validationData. -/
theorem unpackSigFailed_pack (b : Bool) (vu va : Nat) :
    unpackSigFailed (packValidationData b vu va) = b := by
  simp only [unpackSigFailed, packValidationData, Nat.testBit_lor, Nat.testBit_shiftLeft]
  cases b <;> simp

/-- Helper: the validUntil field of the packed validationData. -/
theorem unpackValidUntil_pack (b : Bool) (vu va : Nat) (hvu : vu < 2 ^ 48) :
    unpackValidUntil (packValidationData b vu va) = vu := by
  apply Nat.eq_of_testBit_eq
  intro i
  simp only [unpackValidUntil, packValidationData, Nat.testBit_land, Nat.testBit_shiftRight,
    Nat.testBit_lor, Nat.testBit_shiftLeft, Nat.testBit_two_pow_sub_one]
  by_cases h : i < 48
  · have e1 : (160 : Nat) ≤ 160 + i := by omega
    have e2 : ¬ ((208 : Nat) ≤ 160 + i) := by omega
    have e3 : 160 + i - 160 = i := by omega
    have e4 : Nat.testBit (if b then 1 else 0) (160 + i) = false := by
      cases b
      · simp
      · exact Nat.testBit_eq_false_of_lt (by simpa using Nat.one_lt_two_pow (by omega))
    simp [h, e1, e2, e3, e4]
  · have hv : Nat.testBit vu i = false :=
      Nat.testBit_eq_false_of_lt
        (lt_of_lt_of_le hvu (Nat.pow_le_pow_right (by norm_num) (by omega)))
    simp [h, hv]

/-- Helper: the validAfter field of the packed validationData. -/
theorem unpackValidAfter_pack (b : Bool) (vu va : Nat) (hvu : vu < 2 ^ 48) :
    unpackValidAfter (packValidationData b vu va) = va := by
  apply Nat.eq_of_testBit_eq
  intro i
  simp only [unpackValidAfter, packValidationData, Nat.testBit_shiftRight,
    Nat.testBit_lor, Nat.testBit_shiftLeft]
  have e1 : (160 : Nat) ≤ 208 + i := by omega
  have e2 : (208 : Nat) ≤ 208 + i := by omega
  have e3 : 208 + i - 160 = 48 + i := by omega
  have e4 : 208 + i - 208 = i := by omega
  have e5 : Nat.testBit (if b then 1 else 0) (208 + i) = false := by
    cases b
    · simp
    · exact Nat.testBit_eq_false_of_lt (by simpa using Nat.one_lt_two_pow (by omega))
  have hv : Nat.testBit vu (48 + i) = false :=
    Nat.testBit_eq_false_of_lt
      (lt_of_lt_of_le hvu (Nat.pow_le_pow_right (by norm_num) (by omega)))
  simp [e1, e2, e3, e4, e5, hv]

/-- C2: for the same (sender, validUntil, validAfter, paymasterAddress,
chainId, entryPoint), the byte string the backend feeds to keccak256
equals the byte string the on-chain validator feeds to keccak256 (six
32-byte words, types address, uint48, uint48, address, uint256, address,
in that order), so for any keccak function the two digests coincide and a
signature produced by the backend signing protocol recovers to the
sponsor key address against the digest the validator computes. -/
theorem c2_auth_hash_agreement (keccak : List Nat → List Nat) (key : Nat)
    (sender vu va pm cid ep : Nat)
    (hs : sender < 2 ^ 160) (hvu : vu < 2 ^ 48) (hva : va < 2 ^ 48)
    (hpm : pm < 2 ^ 160) (hcid : cid < 2 ^ 256) (hep : ep < 2 ^ 160) :
    backendAuthEncoding sender vu va pm cid ep = chainAuthEncoding sender vu va pm cid ep
    ∧ keccak (backendAuthEncoding sender vu va pm cid ep)
        = keccak (chainAuthEncoding sender vu va pm cid ep)
    ∧ ecrecover
        (keccak (personalMessageTag ++ keccak (chainAuthEncoding sender vu va pm cid ep)))
        (personalSign keccak key (keccak (backendAuthEncoding sender vu va pm cid ep)))
      = addrOfKey key := by
  refine ⟨rfl, rfl, ?_⟩
  rw [show backendAuthEncoding sender vu va pm cid ep
    = chainAuthEncoding sender vu va pm cid ep from rfl]
  simp [ecrecover, personalSign, signMessage]

/-- Witness for c2_auth_hash_agreement at small concrete field values
and keccak instantiated with the identity on byte lists. -/
theorem c2_auth_hash_agreement_witness :
    backendAuthEncoding 3 7 2 5 31337 6 = chainAuthEncoding 3 7 2 5 31337 6
    ∧ ecrecover
        ((fun l => l) (personalMessageTag ++ (fun l => l) (chainAuthEncoding 3 7 2 5 31337 6)))
        (personalSign (fun l => l) 1 ((fun l => l) (backendAuthEncoding 3 7 2 5 31337 6)))
      = addrOfKey 1 :=
  ⟨(c2_auth_hash_agreement (fun l => l) 1 3 7 2 5 31337 6 (by norm_num) (by norm_num)
      (by norm_num) (by norm_num) (by norm_num) (by norm_num)).1,
   (c2_auth_hash_agreement (fun l => l) 1 3 7 2 5 31337 6 (by norm_num) (by norm_num)
      (by norm_num) (by norm_num) (by norm_num) (by norm_num)).2.2⟩

/-- C6: the validator never reverts; when the recovered signer differs
from the registered sponsorSigner it returns an empty context and packed
validationData with the failure bit set and carrying the
validUntil/validAfter window, and when it matches it returns the
sender context and packed validationData with the failure bit clear
carrying the same window. -/
theorem c6_validator_packed_result (keccak : List Nat → List Nat) (ps : PaymasterState)
    (sender vu va : Nat) (sig : Signed (List Nat))
    (hvu : vu < 2 ^ 48) (hva : va < 2 ^ 48) :
    (ecrecover
        (keccak (personalMessageTag
          ++ keccak (chainAuthEncoding sender vu va ps.thisAddr ps.chainId ps.entryPoint))) sig
        ≠ ps.sponsorSigner →
      validatePaymasterUserOp keccak ps sender vu va sig
        = ([], packValidationData true vu va)
      ∧ unpackSigFailed (validatePaymasterUserOp keccak ps sender vu va sig).2 = true
      ∧ unpackValidUntil (validatePaymasterUserOp keccak ps sender vu va sig).2 = vu
      ∧ unpackValidAfter (validatePaymasterUserOp keccak ps sender vu va sig).2 = va)
    ∧ (ecrecover
        (keccak (personalMessageTag
          ++ keccak (chainAuthEncoding sender vu va ps.thisAddr ps.chainId ps.entryPoint))) sig
        = ps.sponsorSigner →
      validatePaymasterUserOp keccak ps sender vu va sig
        = (abiWord sender, packValidationData false vu va)
      ∧ unpackSigFailed (validatePaymasterUserOp keccak ps sender vu va sig).2 = false
      ∧ unpackValidUntil (validatePaymasterUserOp keccak ps sender vu va sig).2 = vu
      ∧ unpackValidAfter (validatePaymasterUserOp keccak ps sender vu va sig).2 = va) := by
  constructor
  · intro h
    have hv : validatePaymasterUserOp keccak ps sender vu va sig
        = ([], packValidationData true vu va) := by
      simp [validatePaymasterUserOp, h]
    exact ⟨hv, by rw [hv]; exact unpackSigFailed_pack true vu va,
      by rw [hv]; exact unpackValidUntil_pack true vu va hvu,
      by rw [hv]; exact unpackValidAfter_pack true vu va hvu⟩
  · intro h
    have hv : validatePaymasterUserOp keccak ps sender vu va sig
        = (abiWord sender, packValidationData false vu va) := by
      simp [validatePaymasterUserOp, h]
    exact ⟨hv, by rw [hv]; exact unpackSigFailed_pack false vu va,
      by rw [hv]; exact unpackValidUntil_pack false vu va hvu,
      by rw [hv]; exact unpackValidAfter_pack false vu va hvu⟩

end Paymaster

namespace Paymaster

/-- Witness for c6_validator_packed_result with keccak instantiated with
the identity on byte lists: a signature over the wrong digest yields the
packed failure result, a signature by the sponsor key over the right
digest yields the packed success result, and both carry the window. -/
theorem c6_validator_packed_result_witness :
    validatePaymasterUserOp (fun l => l) ⟨2, 5, 31337, 6⟩ 3 7 2 ⟨1, []⟩
      = ([], packValidationData true 7 2)
    ∧ unpackSigFailed (validatePaymasterUserOp (fun l => l) ⟨2, 5, 31337, 6⟩ 3 7 2 ⟨1, []⟩).2
      = true
    ∧ unpackValidUntil (validatePaymasterUserOp (fun l => l) ⟨2, 5, 31337, 6⟩ 3 7 2 ⟨1, []⟩).2
      = 7
    ∧ validatePaymasterUserOp (fun l => l) ⟨2, 5, 31337, 6⟩ 3 7 2
        ⟨2, personalMessageTag ++ chainAuthEncoding 3 7 2 5 31337 6⟩
      = (abiWord 3, packValidationData false 7 2)
    ∧ unpackValidAfter (validatePaymasterUserOp (fun l => l) ⟨2, 5, 31337, 6⟩ 3 7 2
        ⟨2, personalMessageTag ++ chainAuthEncoding 3 7 2 5 31337 6⟩).2 = 2 := by
  have hfail := (c6_validator_packed_result (fun l => l) ⟨2, 5, 31337, 6⟩ 3 7 2 ⟨1, []⟩
    (by decide) (by decide)).1 (by decide)
  have hok := (c6_validator_packed_result (fun l => l) ⟨2, 5, 31337, 6⟩ 3 7 2
    ⟨2, personalMessageTag ++ chainAuthEncoding 3 7 2 5 31337 6⟩
    (by decide) (by decide)).2 (by decide)
  exact ⟨hfail.1, hfail.2.1, hfail.2.2.1, hok.1, hok.2.2.2⟩

end Paymaster
